import Mathlib

/-!
Verification of the chronicle-backend trait engine and its scope-blending
coordinator, as a shallow embedding over exact rationals (ℚ).

Sources embedded here:
  * `src/traitEngine.ts` (the chunk concatenated into `src/src/types.ts`,
    the version that includes the `mashing_intensity` bonus and
    `generateTraitExplanations`): `computeTraits`, `roundTraits`,
    `personaText`, `topSignals`, `generateTraitExplanations`.
  * `src/src/memory/SupermemoryStore.ts`: the trait-memory aggregation of
    `fetchLatestPersona` and the per-scope coordination of
    `saveFromServerInput` (store I/O is modelled as an `Except`-valued
    lookup parameter: `Except.error` is a thrown/rejected lookup,
    `Except.ok none` is "no previous persona").

JavaScript numbers are modelled as exact rationals; `toFixed(2)` /
`Math.round` are modelled on ℚ by their ECMA definitions (nearest, ties to
the larger value), which the idealized (real-number) semantics of the
source formulas realize exactly.
-/

namespace Chronicle

/-- GameplayStats: the twelve required numeric counters of `StatsZ` in
`src/src/types.ts`, plus the optional `mashing_intensity` field that
`computeTraits` reads (`stats.mashing_intensity`). -/
structure Stats where
  time_s : ℚ
  deaths : ℚ
  retries : ℚ
  distance_traveled : ℚ
  jumps : ℚ
  hint_offers : ℚ
  hints_used : ℚ
  riddles_attempted : ℚ
  riddles_correct : ℚ
  combats_initiated : ℚ
  combats_won : ℚ
  collectibles_found : ℚ
  mashing_intensity : Option ℚ
deriving DecidableEq, Repr

/-- TraitVector (`TraitsZ`): seven numeric trait scores. -/
structure Traits where
  aggression : ℚ
  stealth : ℚ
  curiosity : ℚ
  puzzle_affinity : ℚ
  independence : ℚ
  resilience : ℚ
  goal_focus : ℚ
deriving DecidableEq, Repr

/-- Names of the seven traits, used to state per-trait properties. -/
inductive TraitName where
  | aggression
  | stealth
  | curiosity
  | puzzle_affinity
  | independence
  | resilience
  | goal_focus
deriving DecidableEq, Repr

/-- Field accessor for a `Traits` record by trait name. -/
def Traits.get (t : Traits) : TraitName → ℚ
  | .aggression => t.aggression
  | .stealth => t.stealth
  | .curiosity => t.curiosity
  | .puzzle_affinity => t.puzzle_affinity
  | .independence => t.independence
  | .resilience => t.resilience
  | .goal_focus => t.goal_focus

/-- Source `round(n) = Number(n.toFixed(2))` in `traitEngine.ts`:
round to two decimals, nearest, ties to the larger value
(the ECMA `toFixed` tie rule). -/
def round2 (x : ℚ) : ℚ := ((Int.floor (x * 100 + 1/2) : ℤ) : ℚ) / 100

/-- Source `norm = (x) => Math.max(0, Math.min(1, x))`: clamp to [0,1]. -/
def norm01 (x : ℚ) : ℚ := max 0 (min 1 x)

/-- Source `blend = (c,p) => p==null ? c : (0.6*p + 0.4*c)`. -/
def blend (c : ℚ) : Option ℚ → ℚ
  | none => c
  | some p => 0.6 * p + 0.4 * c

/-- Source `mashingBonus = stats.mashing_intensity ?
Math.min(stats.mashing_intensity, 1) * 0.3 : 0`. The JavaScript
truthiness test makes a present-but-zero intensity take the `0` branch. -/
def mashingBonus (stats : Stats) : ℚ :=
  match stats.mashing_intensity with
  | none => 0
  | some v => if v = 0 then 0 else min v 1 * 0.3

/-- Source `aggressionRaw`. -/
def aggressionRaw (stats : Stats) : ℚ :=
  (stats.combats_initiated * 1.0 + stats.combats_won * 0.5) + mashingBonus stats

/-- Source `puzzleRaw`. -/
def puzzleRaw (stats : Stats) : ℚ :=
  stats.riddles_correct * 1.0 + (stats.riddles_attempted - stats.riddles_correct) * 0.2

/-- Source `curiosityRaw`. -/
def curiosityRaw (stats : Stats) : ℚ :=
  stats.collectibles_found * 0.7 + min (stats.distance_traveled / 500) 1 * 0.3

/-- Source `resilienceRaw`. -/
def resilienceRaw (stats : Stats) : ℚ :=
  stats.retries * 0.8 + stats.deaths * 0.4 - min (stats.time_s / 600) 1 * 0.2

/-- Source `independenceRaw`. -/
def independenceRaw (stats : Stats) : ℚ :=
  if stats.hint_offers > 0 ∧ stats.hints_used = 0 then 1
  else max 0 (1 - stats.hints_used * 0.5)

/-- Source `goalRaw`. -/
def goalRaw (stats : Stats) : ℚ :=
  (if stats.time_s < 180 then 1 else max 0 (1 - (stats.time_s - 180) / 300)) +
    (if stats.retries = 0 then 0.2 else 0) + mashingBonus stats

/-- Source `roundTraits`: two-decimal rounding of every field. -/
def roundTraits (t : Traits) : Traits :=
  { aggression := round2 t.aggression
    stealth := round2 t.stealth
    curiosity := round2 t.curiosity
    puzzle_affinity := round2 t.puzzle_affinity
    independence := round2 t.independence
    resilience := round2 t.resilience
    goal_focus := round2 t.goal_focus }

/-- Source `computeTraits(stats, prev?)`: raw score, clamp, blend with the
optional previous value, round last. -/
def computeTraits (stats : Stats) (prev : Option Traits) : Traits :=
  roundTraits
    { aggression := blend (norm01 (aggressionRaw stats / 5)) (prev.map Traits.aggression)
      stealth :=
        blend
          (norm01 (1 - (if stats.combats_initiated > 0 then 0.6 else 0) -
            (if stats.deaths > 0 then 0.2 else 0)))
          (prev.map Traits.stealth)
      curiosity := blend (norm01 (curiosityRaw stats / 5)) (prev.map Traits.curiosity)
      puzzle_affinity := blend (norm01 (puzzleRaw stats / 3)) (prev.map Traits.puzzle_affinity)
      independence := blend (norm01 (independenceRaw stats)) (prev.map Traits.independence)
      resilience := blend (norm01 (resilienceRaw stats / 3)) (prev.map Traits.resilience)
      goal_focus := blend (norm01 (goalRaw stats / 1.4)) (prev.map Traits.goal_focus) }

/-- Per-trait clamped normalized score: the value `computeTraits` feeds
into `blend` for each trait (raw score over its fixed divisor, clamped). -/
def normScore (stats : Stats) : TraitName → ℚ
  | .aggression => norm01 (aggressionRaw stats / 5)
  | .stealth =>
      norm01 (1 - (if stats.combats_initiated > 0 then 0.6 else 0) -
        (if stats.deaths > 0 then 0.2 else 0))
  | .curiosity => norm01 (curiosityRaw stats / 5)
  | .puzzle_affinity => norm01 (puzzleRaw stats / 3)
  | .independence => norm01 (independenceRaw stats)
  | .resilience => norm01 (resilienceRaw stats / 3)
  | .goal_focus => norm01 (goalRaw stats / 1.4)

/-- JavaScript `Math.round` (and `toFixed(0)` tie behaviour): nearest
integer, ties toward the larger value. -/
def jsRound (x : ℚ) : ℤ := Int.floor (x + 1/2)

/-- Rendering of a JavaScript number into a template string. Integers
print without a decimal point, which is the only case exercised by the
spec scenarios; non-integer rationals fall back to the Lean `a/b` form. -/
def jsNumStr (q : ℚ) : String :=
  if q.den = 1 then toString q.num else toString q

/-- JavaScript `x.toFixed(2)` on a rational: two-decimal rounding
(nearest, ties to the larger value), rendered with a forced two-digit
fraction part. -/
def toFixed2 (x : ℚ) : String :=
  let c : ℤ := Int.floor (x * 100 + 1/2)
  let sgn := if c < 0 then "-" else ""
  let m := c.natAbs
  sgn ++ toString (m / 100) ++ "." ++ (if m % 100 < 10 then "0" else "") ++ toString (m % 100)

/-- JavaScript `x.toFixed(0)`. -/
def toFixed0 (x : ℚ) : String := toString (jsRound x)

/-- Source `personaText(t)`: threshold descriptors in a fixed order, with
the "balanced playstyle" fallback. -/
def personaText (t : Traits) : String :=
  let bits : List String :=
    (if t.puzzle_affinity > 0.6 then ["puzzle-leaning"] else []) ++
    (if t.curiosity > 0.6 then ["exploration-oriented"] else []) ++
    (if t.aggression > 0.5 then ["combat-inclined"] else []) ++
    (if t.independence > 0.6 then ["rarely uses hints"] else []) ++
    (if t.resilience > 0.6 then ["bounces back after failures"] else [])
  let bits := if bits.isEmpty then ["balanced playstyle"] else bits
  "Shows " ++ String.intercalate ", " bits ++ "; goal focus " ++
    toString (jsRound (t.goal_focus * 100)) ++ "%."

/-- Source `topSignals(stats)`: five conditional signals pushed in a fixed
order, then `slice(0,3)`. -/
def topSignals (stats : Stats) : List String :=
  let s : List String :=
    (if stats.riddles_correct > 0 then
      ["Solved " ++ jsNumStr stats.riddles_correct ++ " riddle(s)"] else []) ++
    (if stats.combats_initiated > 0 then
      ["Started " ++ jsNumStr stats.combats_initiated ++ " combat(s), won " ++
        jsNumStr stats.combats_won] else []) ++
    (if stats.collectibles_found > 0 then
      ["Found " ++ jsNumStr stats.collectibles_found ++ " collectible(s)"] else []) ++
    (if stats.hints_used > 0 then
      ["Used " ++ jsNumStr stats.hints_used ++ " hint(s)"] else []) ++
    (if stats.retries > 0 then
      ["Retried " ++ jsNumStr stats.retries ++ " time(s)"] else [])
  s.take 3

/-- Spec restatement of `topSignals` (§4.1 of the spec, quoted by C8): an
ordered list of (condition, string) candidates, keeping the strings whose
condition holds and truncating to the first three. -/
def signalCandidates (stats : Stats) : List (Bool × String) :=
  [(decide (stats.riddles_correct > 0),
      "Solved " ++ jsNumStr stats.riddles_correct ++ " riddle(s)"),
   (decide (stats.combats_initiated > 0),
      "Started " ++ jsNumStr stats.combats_initiated ++ " combat(s), won " ++
        jsNumStr stats.combats_won),
   (decide (stats.collectibles_found > 0),
      "Found " ++ jsNumStr stats.collectibles_found ++ " collectible(s)"),
   (decide (stats.hints_used > 0), "Used " ++ jsNumStr stats.hints_used ++ " hint(s)"),
   (decide (stats.retries > 0), "Retried " ++ jsNumStr stats.retries ++ " time(s)")]

/-- Spec restatement of `topSignals`, to compare against the source
translation. -/
def topSignalsSpec (stats : Stats) : List String :=
  ((signalCandidates stats).filterMap (fun cs => if cs.1 then some cs.2 else none)).take 3

/-- Neutral default trait vector (`defaultTraits` in
`SupermemoryStore.saveFromServerInput` and the fallback `prev` object in
`generateTraitExplanations`): every trait 0.5. -/
def defaultTraits : Traits :=
  { aggression := 0.5, stealth := 0.5, curiosity := 0.5, puzzle_affinity := 0.5,
    independence := 0.5, resilience := 0.5, goal_focus := 0.5 }

/-- Source `formatChange` helper inside `generateTraitExplanations`.
`hasPrev` records whether the original `prevTraits` argument was present
(the source tests `prevTraits`, not the defaulted `prev`). -/
def formatChange (hasPrev : Bool) (traitLabel : String) (prevVal newVal : ℚ)
    (reason : String) : String :=
  let change :=
    if newVal > prevVal then "increased"
    else if newVal < prevVal then "decreased" else "unchanged"
  let prevStr := if hasPrev then toFixed2 prevVal else "default (0.50)"
  traitLabel ++ ": " ++ change ++ " from " ++ prevStr ++ " to " ++ toFixed2 newVal ++
    ". " ++ reason

/-- The source pattern `reasons.length > 0 ? intro + reasons.join(", ") + "." :
fallback`. -/
def joinReasons (intro : String) (reasons : List String) (fallback : String) : String :=
  if reasons.isEmpty then fallback
  else intro ++ String.intercalate ", " reasons ++ "."

/-- The source test `stats.mashing_intensity && stats.mashing_intensity > 0.5`
(truthiness plus threshold; a zero intensity fails both). -/
def mashingHigh (stats : Stats) : Prop :=
  match stats.mashing_intensity with
  | none => False
  | some v => v > 0.5

instance (stats : Stats) : Decidable (mashingHigh stats) := by
  unfold mashingHigh
  cases stats.mashing_intensity with
  | none => exact inferInstanceAs (Decidable False)
  | some v => exact inferInstanceAs (Decidable (v > 0.5))

/-- The mashing intensity value used inside the truthy branch. -/
def mashingVal (stats : Stats) : ℚ := stats.mashing_intensity.getD 0

/-- Source `generateTraitExplanations(stats, prevTraits?, newTraits)`:
seven explanation strings in the fixed trait order. -/
def generateTraitExplanations (stats : Stats) (prevTraits : Option Traits)
    (newTraits : Traits) : List String :=
  let prev := prevTraits.getD defaultTraits
  let hasPrev := prevTraits.isSome
  let mashPct := "high button mashing intensity (" ++ toFixed0 (mashingVal stats * 100) ++ "%)"
  let aggReasons :=
    (if stats.combats_initiated > 0 then
      ["Started " ++ jsNumStr stats.combats_initiated ++ " combat(s)"] else []) ++
    (if stats.combats_won > 0 then
      ["won " ++ jsNumStr stats.combats_won ++ " combat(s)"] else []) ++
    (if mashingHigh stats then [mashPct] else [])
  let stealthReasons :=
    (if stats.combats_initiated > 0 then
      ["combat engagement (" ++ jsNumStr stats.combats_initiated ++ " combat(s))"] else []) ++
    (if stats.deaths > 0 then ["death(s) (" ++ jsNumStr stats.deaths ++ ")"] else [])
  let curiosityReasons :=
    (if stats.collectibles_found > 0 then
      ["found " ++ jsNumStr stats.collectibles_found ++ " collectible(s)"] else []) ++
    (if stats.distance_traveled > 0 then
      ["traveled " ++ jsNumStr stats.distance_traveled ++ " units"] else [])
  let puzzleReasons :=
    (if stats.riddles_correct > 0 then
      ["solved " ++ jsNumStr stats.riddles_correct ++ " riddle(s) correctly"] else []) ++
    (if stats.riddles_attempted > stats.riddles_correct then
      ["attempted " ++ jsNumStr (stats.riddles_attempted - stats.riddles_correct) ++
        " additional riddle(s)"] else [])
  let indepReasons :=
    if stats.hint_offers > 0 ∧ stats.hints_used = 0 then ["hints offered but none used"]
    else if stats.hints_used > 0 then
      ["used " ++ jsNumStr stats.hints_used ++ " hint(s)"]
    else []
  let resReasons :=
    (if stats.retries > 0 then
      ["retried " ++ jsNumStr stats.retries ++ " time(s) after failure"] else []) ++
    (if stats.deaths > 0 then
      ["experienced " ++ jsNumStr stats.deaths ++ " death(s) but persisted"] else []) ++
    (if stats.time_s < 600 then
      ["completed quickly (" ++ jsNumStr stats.time_s ++
        "s), potentially avoiding challenges"] else [])
  let goalReasons :=
    (if stats.time_s < 180 then
      ["fast completion (" ++ jsNumStr stats.time_s ++ "s)"] else []) ++
    (if stats.retries = 0 then ["no retries needed"] else []) ++
    (if mashingHigh stats then [mashPct ++ " indicating focused effort"] else [])
  [formatChange hasPrev "Aggression" prev.aggression newTraits.aggression
      (joinReasons "Affected by: " aggReasons "No combat activity or mashing detected."),
   formatChange hasPrev "Stealth" prev.stealth newTraits.stealth
      (joinReasons "Decreased due to: " stealthReasons "No combat or deaths detected."),
   formatChange hasPrev "Curiosity" prev.curiosity newTraits.curiosity
      (joinReasons "Affected by: " curiosityReasons
        "Limited exploration and no collectibles found."),
   formatChange hasPrev "Puzzle Affinity" prev.puzzle_affinity newTraits.puzzle_affinity
      (joinReasons "Affected by: " puzzleReasons "No puzzle-solving activity detected."),
   formatChange hasPrev "Independence" prev.independence newTraits.independence
      (joinReasons "Affected by: " indepReasons "No hint activity detected."),
   formatChange hasPrev "Resilience" prev.resilience newTraits.resilience
      (joinReasons "Affected by: " resReasons "No failure recovery data detected."),
   formatChange hasPrev "Goal Focus" prev.goal_focus newTraits.goal_focus
      (joinReasons "Affected by: " goalReasons "Standard completion time and retries.")]

/-- Spec form of the mashing bonus (C6): `min(mashing_intensity,1)*0.3`
when the optional field is present, else 0 — no truthiness test. -/
def mashingBonusSpec : Option ℚ → ℚ
  | none => 0
  | some v => min v 1 * 0.3

/-- Checked division, used to state totality (C9): the only divisions
`computeTraits` performs are by the fixed constants 5, 3, 1.4, 500, 600
and 300, each guarded here. -/
def safeDiv (a b : ℚ) : Except String ℚ :=
  if b = 0 then Except.error "division by zero" else Except.ok (a / b)

/-- Checked variant of `computeTraits` with every division routed through
`safeDiv`; an error would surface as `Except.error`, and C9 proves none
ever does. -/
def computeTraitsChecked (stats : Stats) (prev : Option Traits) : Except String Traits :=
  match safeDiv (aggressionRaw stats) 5 with
  | Except.error e => Except.error e
  | Except.ok aggressionDiv =>
  match safeDiv stats.distance_traveled 500 with
  | Except.error e => Except.error e
  | Except.ok distRatio =>
  match safeDiv (stats.collectibles_found * 0.7 + min distRatio 1 * 0.3) 5 with
  | Except.error e => Except.error e
  | Except.ok curiosityDiv =>
  match safeDiv (puzzleRaw stats) 3 with
  | Except.error e => Except.error e
  | Except.ok puzzleDiv =>
  match safeDiv stats.time_s 600 with
  | Except.error e => Except.error e
  | Except.ok timeRatio =>
  match safeDiv (stats.retries * 0.8 + stats.deaths * 0.4 - min timeRatio 1 * 0.2) 3 with
  | Except.error e => Except.error e
  | Except.ok resilienceDiv =>
  match safeDiv (stats.time_s - 180) 300 with
  | Except.error e => Except.error e
  | Except.ok lateness =>
  match safeDiv
      ((if stats.time_s < 180 then 1 else max 0 (1 - lateness)) +
        (if stats.retries = 0 then 0.2 else 0) + mashingBonus stats) 1.4 with
  | Except.error e => Except.error e
  | Except.ok goalDiv =>
  Except.ok (roundTraits
    { aggression := blend (norm01 aggressionDiv) (prev.map Traits.aggression)
      stealth :=
        blend
          (norm01 (1 - (if stats.combats_initiated > 0 then 0.6 else 0) -
            (if stats.deaths > 0 then 0.2 else 0)))
          (prev.map Traits.stealth)
      curiosity := blend (norm01 curiosityDiv) (prev.map Traits.curiosity)
      puzzle_affinity := blend (norm01 puzzleDiv) (prev.map Traits.puzzle_affinity)
      independence := blend (norm01 (independenceRaw stats)) (prev.map Traits.independence)
      resilience := blend (norm01 resilienceDiv) (prev.map Traits.resilience)
      goal_focus := blend (norm01 goalDiv) (prev.map Traits.goal_focus) })

/-!
Store model: `SupermemoryStore.fetchLatestPersona` aggregates individual
`trait_memory` documents into a persona, and `saveFromServerInput`
coordinates one blend-and-persist pass per applicable scope.
-/

/-- One stored `trait_memory` record, reduced to the metadata fields the
aggregation in `fetchLatestPersona` reads (`trait_name`, `trait_value`,
`updated_at`); records whose `trait_name`/`trait_value` metadata is
missing are skipped by the source guard and are not modelled. -/
structure TraitMem where
  trait_name : TraitName
  trait_value : ℚ
  updated_at : String
deriving DecidableEq, Repr

/-- JavaScript falsiness of `traits[traitName]` in the aggregation loop:
an unset entry is falsy, and so is a stored value of exactly 0. -/
def jsFalsy : Option ℚ → Bool
  | none => true
  | some v => v == 0

/-- Mutable state of the `fetchLatestPersona` aggregation loop: the
partial trait map plus the single `latestUpdated` string shared by all
traits. -/
structure AggState where
  traits : TraitName → Option ℚ
  latestUpdated : String

/-- Initial aggregation state (`traits = {}`, `latestUpdated = ''`). -/
def initAgg : AggState := { traits := fun _ => none, latestUpdated := "" }

/-- One iteration of the `fetchLatestPersona` aggregation loop (the
global and non-global branches of the source are textually identical):
`if (!traits[traitName] || updatedAt >= latestUpdated) { traits[traitName]
= traitValue; if (updatedAt > latestUpdated) latestUpdated = updatedAt; }`. -/
def aggStep (st : AggState) (m : TraitMem) : AggState :=
  if jsFalsy (st.traits m.trait_name) = true ∨ ¬ m.updated_at < st.latestUpdated then
    { traits := fun n => if n = m.trait_name then some m.trait_value else st.traits n
      latestUpdated :=
        if st.latestUpdated < m.updated_at then m.updated_at else st.latestUpdated }
  else st

/-- The trait map `fetchLatestPersona` builds from the fetched
trait-memory records, in the order the store returned them. -/
def fetchAggTraits (ms : List TraitMem) : TraitName → Option ℚ :=
  (ms.foldl aggStep initAgg).traits

/-- The completion check of `fetchLatestPersona`: a persona is returned
only when all seven traits were aggregated. -/
def aggregatePersonaTraits (ms : List TraitMem) : Option Traits :=
  let f := fetchAggTraits ms
  match f .aggression, f .stealth, f .curiosity, f .puzzle_affinity,
      f .independence, f .resilience, f .goal_focus with
  | some a, some s, some c, some p, some i, some r, some g =>
      some { aggression := a, stealth := s, curiosity := c, puzzle_affinity := p,
             independence := i, resilience := r, goal_focus := g }
  | _, _, _, _, _, _, _ => none

/-- The claim's reading of the aggregation (C7): `m` is, among the
records for trait `n`, one with the latest `updated_at` timestamp. -/
def isLatestForTrait (ms : List TraitMem) (n : TraitName) (m : TraitMem) : Prop :=
  m ∈ ms ∧ m.trait_name = n ∧
    ∀ m' ∈ ms, m'.trait_name = n → m'.updated_at ≤ m.updated_at

instance (ms : List TraitMem) (n : TraitName) (m : TraitMem) :
    Decidable (isLatestForTrait ms n m) := by
  unfold isLatestForTrait
  infer_instance

/-- Value of the first record for trait `n` in the list, if any. -/
def firstVal (ms : List TraitMem) (n : TraitName) : Option ℚ :=
  (ms.find? (fun m => decide (m.trait_name = n))).map TraitMem.trait_value

/-- First-some choice on optional values. -/
def optOr : Option ℚ → Option ℚ → Option ℚ
  | some v, _ => some v
  | none, b => b

/-- Scope keys of the coordinator (`ScopeKey` in SupermemoryStore). -/
inductive ScopeKeyQ where
  | global
  | game (game_id : String)
  | genre (genre_id : String)
  | platform (platform_id : String)
deriving DecidableEq, Repr

/-- The scopes `saveFromServerInput` processes, in source order: always
global; game when a (truthy) game id is present; only the first genre and
the first platform of the supplied lists. -/
def applicableScopes (gameId : Option String) (genres platforms : List String) :
    List ScopeKeyQ :=
  [ScopeKeyQ.global] ++
    (match gameId with | some g => [ScopeKeyQ.game g] | none => []) ++
    (match genres with | g :: _ => [ScopeKeyQ.genre g] | [] => []) ++
    (match platforms with | p :: _ => [ScopeKeyQ.platform p] | [] => [])

/-- One scope pass of `saveFromServerInput`, parameterized by the store
lookup outcome: `lookup k` is the result of `await fetchLatestPersona`
(`Except.error` = the underlying `list` call threw after its retries;
`Except.ok none` = no previous persona). A thrown lookup propagates — the
source has no try/catch around it. On success the scope's persisted
traits are `computeTraits(stats, storedTraits || defaultTraits)`. -/
def processScopes (lookup : ScopeKeyQ → Except String (Option Traits)) (stats : Stats) :
    List ScopeKeyQ → Except String (List (ScopeKeyQ × Traits))
  | [] => Except.ok []
  | k :: ks =>
    match lookup k with
    | Except.error e => Except.error e
    | Except.ok prev =>
      match processScopes lookup stats ks with
      | Except.error e => Except.error e
      | Except.ok rest =>
          Except.ok ((k, computeTraits stats (some (prev.getD defaultTraits))) :: rest)

/-- Model of `SupermemoryStore.saveFromServerInput`, reduced to its
per-scope trait computation: the list of (scope, persisted traits) pairs
handed to the final `batchCreate`, or the first propagated lookup error.
The persist itself is all-or-nothing (one batch call at the end), which
the single `Except` return models. -/
def saveFromServerInput (lookup : ScopeKeyQ → Except String (Option Traits))
    (stats : Stats) (gameId : Option String) (genres platforms : List String) :
    Except String (List (ScopeKeyQ × Traits)) :=
  processScopes lookup stats (applicableScopes gameId genres platforms)

/-!
Concrete inputs used by the scenario claims, counterexamples and
witnesses.
-/

/-- All-zero stats record with no mashing intensity. -/
def zeroStats : Stats :=
  { time_s := 0, deaths := 0, retries := 0, distance_traveled := 0, jumps := 0,
    hint_offers := 0, hints_used := 0, riddles_attempted := 0, riddles_correct := 0,
    combats_initiated := 0, combats_won := 0, collectibles_found := 0,
    mashing_intensity := none }

/-- Aggression scenario of C6: 3 combats initiated, 2 won, mashing absent. -/
def aggrStats : Stats := { zeroStats with combats_initiated := 3, combats_won := 2 }

/-- Top-signals scenario of C8. -/
def signalStats : Stats :=
  { zeroStats with
    riddles_correct := 5, combats_initiated := 10, combats_won := 10,
    collectibles_found := 12, hints_used := 2, retries := 3 }

/-- Blend-law scenario of C2: the clamped normalized aggression score is
1/5 = 0.20 (one combat initiated). -/
def blendStats : Stats := { zeroStats with combats_initiated := 1 }

/-- Previous vector with aggression 0.80 for the C2 scenario. -/
def prevPoint8 : Traits := { defaultTraits with aggression := 0.8 }

/-- Stats whose clamped normalized resilience score is 0.501: raw =
2·0.8 − min(291/600,1)·0.2 = 1.503, divided by 3. Used to refute C5. -/
def nearHalfStats : Stats := { zeroStats with retries := 2, time_s := 291 }

/-- Store lookup that finds no previous persona for any scope. -/
def lookupAbsent : ScopeKeyQ → Except String (Option Traits) := fun _ => Except.ok none

/-- Store lookup whose underlying `list` call keeps failing, so
`fetchLatestPersona` rejects (models a store outage during lookup). -/
def lookupDown : ScopeKeyQ → Except String (Option Traits) :=
  fun _ => Except.error "Supermemory list failed: 503"

/-- Trait-memory record for the C7 counterexample: the *latest* record
for aggression carries the stored value 0. -/
def zeroValMem : TraitMem :=
  { trait_name := TraitName.aggression, trait_value := 0,
    updated_at := "2024-05-02T00:00:00Z" }

/-- Older aggression record with a nonzero value (3/10 = 0.3). -/
def olderMem : TraitMem :=
  { trait_name := TraitName.aggression, trait_value := 3/10,
    updated_at := "2024-05-01T00:00:00Z" }

/-- C7 counterexample record list, in the store's descending order. -/
def memsC7 : List TraitMem := [zeroValMem, olderMem]

/-- Latest aggression record (value 7/10) for the C7 amended witness. -/
def topMem : TraitMem :=
  { trait_name := TraitName.aggression, trait_value := 7/10,
    updated_at := "2024-05-02T00:00:00Z" }

/-- Sorted, nonzero-valued record list for the C7 amended witness. -/
def memsC7ok : List TraitMem := [topMem, olderMem]

/-- All twelve required counters non-negative (C1's validity hypothesis;
every rational is "finite"). -/
def StatsNonneg (s : Stats) : Prop :=
  0 ≤ s.time_s ∧ 0 ≤ s.deaths ∧ 0 ≤ s.retries ∧ 0 ≤ s.distance_traveled ∧
    0 ≤ s.jumps ∧ 0 ≤ s.hint_offers ∧ 0 ≤ s.hints_used ∧ 0 ≤ s.riddles_attempted ∧
    0 ≤ s.riddles_correct ∧ 0 ≤ s.combats_initiated ∧ 0 ≤ s.combats_won ∧
    0 ≤ s.collectibles_found

instance (s : Stats) : Decidable (StatsNonneg s) := by
  unfold StatsNonneg
  infer_instance

/-- Every trait field lies in [0,1]. -/
def TraitsInUnit (t : Traits) : Prop := ∀ n, 0 ≤ t.get n ∧ t.get n ≤ 1

/-!
Theorems.
-/

/-- Per-trait reading of `computeTraits`: field `n` of the output is the
rounded blend of the clamped normalized score with the optional previous
field. -/
theorem computeTraits_get (stats : Stats) (prev : Option Traits) (n : TraitName) :
    (computeTraits stats prev).get n =
      round2 (blend (normScore stats n) (prev.map (fun p => p.get n))) := by
  cases n <;> rfl

/-- Every field of the neutral default vector is 0.5. -/
theorem defaultTraits_get (n : TraitName) : defaultTraits.get n = 0.5 := by
  cases n <;> rfl

/-- Clamping lower bound. -/
theorem norm01_nonneg (x : ℚ) : 0 ≤ norm01 x := le_max_left 0 _

/-- Clamping upper bound. -/
theorem norm01_le_one (x : ℚ) : norm01 x ≤ 1 :=
  max_le (by norm_num) (min_le_left 1 x)

/-- Blending keeps [0,1] when both inputs are in [0,1]. -/
theorem blend_mem (c : ℚ) (po : Option ℚ) (hc0 : 0 ≤ c) (hc1 : c ≤ 1)
    (hp : ∀ p, po = some p → 0 ≤ p ∧ p ≤ 1) : 0 ≤ blend c po ∧ blend c po ≤ 1 := by
  cases po with
  | none => exact ⟨hc0, hc1⟩
  | some p =>
    obtain ⟨h0, h1⟩ := hp p rfl
    unfold blend
    norm_num
    constructor <;> nlinarith

/-- Two-decimal rounding keeps non-negativity. -/
theorem round2_nonneg (x : ℚ) (hx : 0 ≤ x) : 0 ≤ round2 x := by
  unfold round2
  have h : (0 : ℤ) ≤ Int.floor (x * 100 + 1/2) := Int.floor_nonneg.mpr (by linarith)
  exact div_nonneg (by exact_mod_cast h) (by norm_num)

/-- Two-decimal rounding keeps the upper bound 1. -/
theorem round2_le_one (x : ℚ) (hx : x ≤ 1) : round2 x ≤ 1 := by
  unfold round2
  rw [div_le_one (by norm_num : (0:ℚ) < 100)]
  have h : Int.floor (x * 100 + 1/2) < 101 := by
    rw [Int.floor_lt]
    push_cast
    linarith
  exact_mod_cast Int.lt_add_one_iff.mp h

/-- The result of `round2` is an integer number of hundredths. -/
theorem round2_centi (x : ℚ) : ∃ k : ℤ, round2 x = (k : ℚ) / 100 :=
  ⟨Int.floor (x * 100 + 1/2), rfl⟩

/-- Values rounding to the same two decimals are within 1/100. -/
theorem round2_eq_imp_close (a b : ℚ) (h : round2 a = round2 b) : |a - b| < 1/100 := by
  have h' : ((Int.floor (a * 100 + 1/2) : ℤ) : ℚ) = ((Int.floor (b * 100 + 1/2) : ℤ) : ℚ) := by
    have h2 := congrArg (fun y => y * 100) h
    simpa [round2, div_mul_cancel₀] using h2
  have hfa := Int.floor_le (a * 100 + 1/2)
  have hfb := Int.floor_le (b * 100 + 1/2)
  have hla := Int.lt_floor_add_one (a * 100 + 1/2)
  have hlb := Int.lt_floor_add_one (b * 100 + 1/2)
  rw [abs_sub_lt_iff]
  constructor <;> linarith

/-- C1: for valid stats (twelve non-negative counters) and a previous
vector whose fields lie in [0,1] — or no previous vector — every field of
`computeTraits stats prev` lies in [0,1] and is an integer multiple of
0.01. -/
theorem computeTraits_unit_centi (stats : Stats) (prev : Option Traits)
    (_hs : StatsNonneg stats) (hp : ∀ p, prev = some p → TraitsInUnit p) :
    ∀ n, (0 ≤ (computeTraits stats prev).get n ∧ (computeTraits stats prev).get n ≤ 1) ∧
      ∃ k : ℤ, (computeTraits stats prev).get n = (k : ℚ) / 100 := by
  intro n
  rw [computeTraits_get]
  have hb : 0 ≤ blend (normScore stats n) (prev.map (fun p => p.get n)) ∧
      blend (normScore stats n) (prev.map (fun p => p.get n)) ≤ 1 := by
    refine blend_mem _ _ ?_ ?_ ?_
    · cases n <;> exact norm01_nonneg _
    · cases n <;> exact norm01_le_one _
    · intro q hq
      cases prev with
      | none => exact absurd hq (by simp)
      | some p =>
        have hq' : q = p.get n := by simpa using hq.symm
        subst hq'
        exact hp p rfl n
  exact ⟨⟨round2_nonneg _ hb.1, round2_le_one _ hb.2⟩, round2_centi _⟩

/-- C1 witness: the theorem instantiated at the all-zero stats record
with no previous vector. -/
theorem computeTraits_unit_centi_witness :
    (0 ≤ (computeTraits zeroStats none).get TraitName.goal_focus ∧
      (computeTraits zeroStats none).get TraitName.goal_focus ≤ 1) ∧
    ∃ k : ℤ, (computeTraits zeroStats none).get TraitName.goal_focus = (k : ℚ) / 100 :=
  computeTraits_unit_centi zeroStats none (by decide)
    (fun p hp => absurd hp (by simp)) TraitName.goal_focus

/-- C2: with a previous vector supplied, every output trait equals
`round(0.6*previous + 0.4*normalized, 2)` exactly; in the spec scenario
p = 0.80, n = 0.20 the blended, rounded value is 0.56. -/
theorem computeTraits_blend_law :
    (∀ (stats : Stats) (p : Traits) (n : TraitName),
      (computeTraits stats (some p)).get n =
        round2 (0.6 * p.get n + 0.4 * normScore stats n)) ∧
    round2 (0.6 * 0.8 + 0.4 * 0.2) = 0.56 ∧
    normScore blendStats TraitName.aggression = 0.2 ∧
    prevPoint8.aggression = 0.8 ∧
    (computeTraits blendStats (some prevPoint8)).aggression = 0.56 := by
  refine ⟨fun stats p n => ?_, ?_, ?_, ?_, ?_⟩
  · rw [computeTraits_get]
    rfl
  · norm_num [round2]
  · norm_num [normScore, norm01, aggressionRaw, mashingBonus, blendStats, zeroStats,
      min_def, max_def]
  · norm_num [prevPoint8, defaultTraits]
  · norm_num [computeTraits, roundTraits, blend, norm01, aggressionRaw, mashingBonus,
      blendStats, zeroStats, prevPoint8, defaultTraits, round2, min_def, max_def]

/-- C6: the raw aggression score is combats_initiated·1.0 +
combats_won·0.5 + mashing_bonus with the spec's presence-based mashing
bonus, the normalized score is the raw score over 5, clamped; and the
scenario combats_initiated = 3, combats_won = 2, mashing absent
normalizes to 0.80. -/
theorem aggression_formula :
    (∀ stats : Stats,
      mashingBonus stats = mashingBonusSpec stats.mashing_intensity ∧
      aggressionRaw stats =
        stats.combats_initiated * 1.0 + stats.combats_won * 0.5 +
          mashingBonusSpec stats.mashing_intensity ∧
      normScore stats TraitName.aggression = norm01 (aggressionRaw stats / 5)) ∧
    normScore aggrStats TraitName.aggression = 0.80 := by
  constructor
  · intro stats
    have hm : mashingBonus stats = mashingBonusSpec stats.mashing_intensity := by
      unfold mashingBonus mashingBonusSpec
      cases stats.mashing_intensity with
      | none => rfl
      | some v =>
        by_cases hv : v = 0
        · subst hv
          norm_num
        · simp [hv]
    exact ⟨hm, by rw [aggressionRaw, hm], rfl⟩
  · norm_num [normScore, norm01, aggressionRaw, mashingBonus, aggrStats, zeroStats,
      min_def, max_def]

/-- C8: `topSignals` evaluates its five conditional signals in the fixed
source order and returns the first at most three that hold; the spec
scenario yields exactly the riddle, combat and collectible signals. -/
theorem topSignals_order_truncation :
    (∀ stats : Stats, topSignals stats = topSignalsSpec stats) ∧
    topSignals signalStats =
      ["Solved 5 riddle(s)", "Started 10 combat(s), won 10", "Found 12 collectible(s)"] := by
  constructor
  · intro stats
    simp only [topSignals, topSignalsSpec, signalCandidates, List.filterMap_cons,
      List.filterMap_nil]
    by_cases h1 : stats.riddles_correct > 0 <;>
      by_cases h2 : stats.combats_initiated > 0 <;>
        by_cases h3 : stats.collectibles_found > 0 <;>
          by_cases h4 : stats.hints_used > 0 <;>
            by_cases h5 : stats.retries > 0 <;>
              simp [h1, h2, h3, h4, h5]
  · decide

/-- C9: `computeTraits` is total — with every division checked, the
checked variant returns `Except.ok` of the same trait vector on every
input, since all divisors (5, 3, 1.4, 500, 600, 300) are fixed nonzero
constants. -/
theorem computeTraits_total (stats : Stats) (prev : Option Traits) :
    computeTraitsChecked stats prev = Except.ok (computeTraits stats prev) := by
  have h5 : (5:ℚ) ≠ 0 := by norm_num
  have h3 : (3:ℚ) ≠ 0 := by norm_num
  have h14 : (1.4:ℚ) ≠ 0 := by norm_num
  have h500 : (500:ℚ) ≠ 0 := by norm_num
  have h600 : (600:ℚ) ≠ 0 := by norm_num
  have h300 : (300:ℚ) ≠ 0 := by norm_num
  simp only [computeTraitsChecked, safeDiv, if_neg h5, if_neg h3, if_neg h14, if_neg h500,
    if_neg h600, if_neg h300]
  rfl

/-- C10: the `jumps` counter influences nothing — changing only `jumps`
leaves `computeTraits`, `topSignals`, the persona text of the computed
traits, and `generateTraitExplanations` unchanged. -/
theorem jumps_noninterference (stats : Stats) (j : ℚ) (prev : Option Traits) :
    computeTraits { stats with jumps := j } prev = computeTraits stats prev ∧
    topSignals { stats with jumps := j } = topSignals stats ∧
    personaText (computeTraits { stats with jumps := j } prev) =
      personaText (computeTraits stats prev) ∧
    generateTraitExplanations { stats with jumps := j } prev
        (computeTraits { stats with jumps := j } prev) =
      generateTraitExplanations stats prev (computeTraits stats prev) :=
  ⟨rfl, rfl, rfl, rfl⟩

/-- C5 counterexample: at stats with retries = 2, time_s = 291 the
clamped normalized resilience score is 0.501 ≠ 0.5, yet the
absent-previous and default-0.5-previous results agree (both round to
0.50), refuting the claim that they differ whenever the score is not
exactly 0.5. -/
theorem absent_vs_default_coincide :
    normScore nearHalfStats TraitName.resilience ≠ 0.5 ∧
    (computeTraits nearHalfStats none).get TraitName.resilience =
      (computeTraits nearHalfStats (some defaultTraits)).get TraitName.resilience := by
  constructor
  · norm_num [normScore, norm01, resilienceRaw, nearHalfStats, zeroStats, min_def, max_def]
  · norm_num [computeTraits, roundTraits, Traits.get, blend, norm01, resilienceRaw,
      nearHalfStats, zeroStats, defaultTraits, round2, min_def, max_def]

/-- C5 amended: `computeTraits stats none` and
`computeTraits stats (some defaultTraits)` differ on a trait whenever its
clamped normalized score is at least 1/60 away from 0.5 (two-decimal
rounding can otherwise make them coincide, as the counterexample with
score 0.501 shows). -/
theorem absent_vs_default_differ (stats : Stats) (n : TraitName)
    (h : 1/60 ≤ |normScore stats n - 0.5|) :
    (computeTraits stats none).get n ≠ (computeTraits stats (some defaultTraits)).get n := by
  intro heq
  rw [computeTraits_get, computeTraits_get] at heq
  have hd : (Option.map (fun p => p.get n) (some defaultTraits)) = some 0.5 := by
    simp [defaultTraits_get]
  rw [hd] at heq
  have heq' : round2 (normScore stats n) =
      round2 (0.6 * (0.5:ℚ) + 0.4 * normScore stats n) := heq
  have hclose := round2_eq_imp_close _ _ heq'
  have habs : normScore stats n - (0.6 * (0.5:ℚ) + 0.4 * normScore stats n) =
      0.6 * (normScore stats n - 0.5) := by ring
  rw [habs, abs_mul] at hclose
  have h06 : |(0.6:ℚ)| = 0.6 := by norm_num
  rw [h06] at hclose
  have : (0.6:ℚ) * (1/60) ≤ 0.6 * |normScore stats n - 0.5| := by
    have h6 : (0:ℚ) < 0.6 := by norm_num
    exact mul_le_mul_of_nonneg_left h (le_of_lt h6)
  norm_num at this hclose
  linarith

/-- C5 amended witness: at the all-zero stats record the resilience score
is 0, at distance ≥ 1/60 from 0.5, and the two results indeed differ. -/
theorem absent_vs_default_differ_witness :
    1/60 ≤ |normScore zeroStats TraitName.resilience - 0.5| ∧
    (computeTraits zeroStats none).get TraitName.resilience ≠
      (computeTraits zeroStats (some defaultTraits)).get TraitName.resilience := by
  have h0 : normScore zeroStats TraitName.resilience = 0 := by
    norm_num [normScore, norm01, resilienceRaw, zeroStats, min_def, max_def]
  have hgap : 1/60 ≤ |normScore zeroStats TraitName.resilience - 0.5| := by
    rw [h0, zero_sub, abs_neg, abs_of_nonneg (by norm_num : (0:ℚ) ≤ 0.5)]
    norm_num
  exact ⟨hgap, absent_vs_default_differ zeroStats TraitName.resilience hgap⟩

/-- Soundness of the coordinator model: every (scope, traits) pair in a
successful result was computed from that scope's lookup outcome, with the
neutral default substituted for an absent persona. -/
theorem processScopes_mem (lookup : ScopeKeyQ → Except String (Option Traits)) (stats : Stats) :
    ∀ (ks : List ScopeKeyQ) (out : List (ScopeKeyQ × Traits)),
      processScopes lookup stats ks = Except.ok out →
      ∀ k t, (k, t) ∈ out →
        ∃ prev, lookup k = Except.ok prev ∧
          t = computeTraits stats (some (prev.getD defaultTraits))
  | [], out, hok, k, t, hmem => by
    simp only [processScopes] at hok
    cases hok
    simp at hmem
  | k0 :: ks, out, hok, k, t, hmem => by
    simp only [processScopes] at hok
    cases hl : lookup k0 with
    | error e => rw [hl] at hok; cases hok
    | ok prev0 =>
      rw [hl] at hok
      cases hr : processScopes lookup stats ks with
      | error e => rw [hr] at hok; cases hok
      | ok rest =>
        rw [hr] at hok
        cases hok
        rcases List.mem_cons.mp hmem with hhead | htail
        · injection hhead with h1 h2
          subst h1
          subst h2
          exact ⟨prev0, hl, rfl⟩
        · exact processScopes_mem lookup stats ks rest hr k t htail

/-- C3: on a first-ever save for a (player, scope) pair — the lookup for
scope `k` returns no previous persona — the coordinator hands the neutral
default vector (all 0.5) to `computeTraits`, so the persisted trait for
each name `n` is `round(0.6*0.5 + 0.4*n_score, 2)`, not the raw
normalized value. -/
theorem first_save_default_blend (lookup : ScopeKeyQ → Except String (Option Traits))
    (stats : Stats) (gameId : Option String) (genres platforms : List String)
    (out : List (ScopeKeyQ × Traits)) (k : ScopeKeyQ) (t : Traits)
    (hok : saveFromServerInput lookup stats gameId genres platforms = Except.ok out)
    (hmem : (k, t) ∈ out) (habsent : lookup k = Except.ok none) :
    t = computeTraits stats (some defaultTraits) ∧
    ∀ n, t.get n = round2 (0.6 * 0.5 + 0.4 * normScore stats n) := by
  obtain ⟨prev, hl, ht⟩ := processScopes_mem lookup stats _ out hok k t hmem
  rw [habsent] at hl
  injection hl with h
  subst h
  refine ⟨ht, ?_⟩
  intro n
  rw [ht, computeTraits_get]
  simp only [Option.getD_none, Option.map_some']
  rw [defaultTraits_get]
  rfl

/-- C3 witness: the theorem applied to a fresh player at the global scope
(lookup returns `ok none`), instantiated at the aggression trait. -/
theorem first_save_default_blend_witness :
    lookupAbsent ScopeKeyQ.global = Except.ok none ∧
    (computeTraits zeroStats (some defaultTraits)).get TraitName.aggression =
      round2 (0.6 * 0.5 + 0.4 * normScore zeroStats TraitName.aggression) :=
  ⟨rfl,
   (first_save_default_blend lookupAbsent zeroStats none [] []
      [(ScopeKeyQ.global, computeTraits zeroStats (some defaultTraits))]
      ScopeKeyQ.global (computeTraits zeroStats (some defaultTraits))
      rfl (List.mem_singleton.mpr rfl) rfl).2 TraitName.aggression⟩

/-- C4 counterexample: when the store lookup fails (the underlying `list`
call keeps rejecting), `saveFromServerInput` propagates the error to its
caller and persists nothing — the claim that a lookup failure still leads
to a default-blended persisted snapshot, and is never surfaced, is false. -/
theorem lookup_failure_surfaces :
    saveFromServerInput lookupDown zeroStats (some "game1") [] [] =
      Except.error "Supermemory list failed: 503" := rfl

/-- C4 amended: a lookup that *succeeds with no data* falls through to
the neutral default vector for every applicable scope and is not an
error; but a lookup that *fails* propagates its error to the
coordinator's caller (no scope is persisted). -/
theorem lookup_failure_semantics :
    (∀ (lookup : ScopeKeyQ → Except String (Option Traits)) (stats : Stats)
        (gameId : Option String) (genres platforms : List String),
      (∀ k, lookup k = Except.ok none) →
      saveFromServerInput lookup stats gameId genres platforms =
        Except.ok ((applicableScopes gameId genres platforms).map
          (fun k => (k, computeTraits stats (some defaultTraits))))) ∧
    (∀ (e : String) (stats : Stats) (gameId : Option String)
        (genres platforms : List String),
      saveFromServerInput (fun _ => Except.error e) stats gameId genres platforms =
        Except.error e) := by
  constructor
  · intro lookup stats gameId genres platforms h
    unfold saveFromServerInput
    generalize applicableScopes gameId genres platforms = ks
    induction ks with
    | nil => rfl
    | cons k ks ih =>
      simp only [processScopes, h k, ih, List.map_cons, Option.getD_none]
  · intro e stats gameId genres platforms
    rfl

/-- C4 amended witness: both halves applied at concrete inputs — a fresh
player saves successfully with the default blend, and a store outage
during lookup surfaces as an error. -/
theorem lookup_failure_semantics_witness :
    saveFromServerInput lookupAbsent zeroStats none [] [] =
      Except.ok ((applicableScopes none [] []).map
        (fun k => (k, computeTraits zeroStats (some defaultTraits)))) ∧
    saveFromServerInput (fun _ => Except.error "store down") zeroStats none [] [] =
      Except.error "store down" :=
  ⟨lookup_failure_semantics.1 lookupAbsent zeroStats none [] [] (fun _ => rfl),
   lookup_failure_semantics.2 "store down" zeroStats none [] []⟩

/-- First-occurrence value: head of the list carries trait `n`. -/
theorem firstVal_cons_self (m : TraitMem) (rest : List TraitMem) (n : TraitName)
    (h : m.trait_name = n) : firstVal (m :: rest) n = some m.trait_value := by
  unfold firstVal
  rw [List.find?_cons_of_pos]
  · rfl
  · simp [h]

/-- First-occurrence value: head of the list carries a different trait. -/
theorem firstVal_cons_ne (m : TraitMem) (rest : List TraitMem) (n : TraitName)
    (h : ¬ m.trait_name = n) : firstVal (m :: rest) n = firstVal rest n := by
  unfold firstVal
  rw [List.find?_cons_of_neg]
  simp [h]

/-- The aggregation step when its guard holds (assignment branch). -/
theorem aggStep_assign (st : AggState) (m : TraitMem)
    (h : jsFalsy (st.traits m.trait_name) = true ∨ ¬ m.updated_at < st.latestUpdated) :
    aggStep st m =
      { traits := fun n => if n = m.trait_name then some m.trait_value else st.traits n
        latestUpdated :=
          if st.latestUpdated < m.updated_at then m.updated_at else st.latestUpdated } := by
  unfold aggStep
  rw [if_pos h]

/-- The aggregation step when its guard fails (record skipped). -/
theorem aggStep_skip (st : AggState) (m : TraitMem)
    (h : ¬ (jsFalsy (st.traits m.trait_name) = true ∨ ¬ m.updated_at < st.latestUpdated)) :
    aggStep st m = st := by
  unfold aggStep
  rw [if_neg h]

/-- Core invariant of the aggregation loop: once every stored value is
nonzero and every remaining record is strictly older than the running
`latestUpdated`, traits already present are never overwritten, and each
still-absent trait receives its *first* remaining record's value. -/
theorem aggStep_go :
    ∀ (rest : List TraitMem) (st : AggState),
      (∀ n v, st.traits n = some v → v ≠ 0) →
      (∀ m ∈ rest, m.updated_at < st.latestUpdated) →
      (∀ m ∈ rest, m.trait_value ≠ 0) →
      ∀ n, (List.foldl aggStep st rest).traits n = optOr (st.traits n) (firstVal rest n)
  | [], st, _hst, _hlt, _hnz, n => by
    simp only [List.foldl_nil, firstVal, List.find?_nil, Option.map_none']
    cases st.traits n <;> rfl
  | m :: rest, st, hst, hlt, hnz, n => by
    have hm0 : m.updated_at < st.latestUpdated := hlt m (List.mem_cons_self m rest)
    rw [List.foldl_cons]
    by_cases hjs : st.traits m.trait_name = none
    · rw [aggStep_assign st m (Or.inl (by rw [hjs]; rfl))]
      have hst2 : ∀ n' v,
          (if n' = m.trait_name then some m.trait_value else st.traits n') = some v →
            v ≠ 0 := by
        intro n' v hv
        by_cases hn' : n' = m.trait_name
        · rw [if_pos hn'] at hv
          injection hv with hv'
          exact hv' ▸ hnz m (List.mem_cons_self m rest)
        · rw [if_neg hn'] at hv
          exact hst n' v hv
      have hlt2 : ∀ x ∈ rest, x.updated_at <
          (if st.latestUpdated < m.updated_at then m.updated_at else st.latestUpdated) := by
        intro x hx
        rw [if_neg (lt_asymm hm0)]
        exact hlt x (List.mem_cons_of_mem m hx)
      have hnz2 : ∀ x ∈ rest, x.trait_value ≠ 0 :=
        fun x hx => hnz x (List.mem_cons_of_mem m hx)
      rw [aggStep_go rest _ hst2 hlt2 hnz2 n]
      show optOr (if n = m.trait_name then some m.trait_value else st.traits n)
          (firstVal rest n) = optOr (st.traits n) (firstVal (m :: rest) n)
      by_cases hn : n = m.trait_name
      · rw [if_pos hn, hn, hjs, firstVal_cons_self m rest m.trait_name rfl]
        rfl
      · rw [if_neg hn, firstVal_cons_ne m rest n (fun h => hn h.symm)]
    · obtain ⟨v, hv⟩ := Option.ne_none_iff_exists'.mp hjs
      have hvnz : v ≠ 0 := hst _ v hv
      have hjsf : jsFalsy (st.traits m.trait_name) = false := by
        rw [hv]
        simp [jsFalsy, hvnz]
      have hcond :
          ¬ (jsFalsy (st.traits m.trait_name) = true ∨
            ¬ m.updated_at < st.latestUpdated) := by
        rw [hjsf]
        push_neg
        exact ⟨Bool.false_ne_true, hm0⟩
      rw [aggStep_skip st m hcond]
      rw [aggStep_go rest st hst (fun x hx => hlt x (List.mem_cons_of_mem m hx))
        (fun x hx => hnz x (List.mem_cons_of_mem m hx)) n]
      by_cases hn : m.trait_name = n
      · rw [← hn, hv]
        rfl
      · rw [firstVal_cons_ne m rest n hn]

/-- On a record list sorted strictly by descending `updated_at`, with all
stored values nonzero and nonempty timestamps, the aggregation of
`fetchLatestPersona` reduces to first-occurrence-wins per trait. -/
theorem fetchAgg_eq_firstVal (ms : List TraitMem)
    (hsorted : ms.Pairwise (fun a b => b.updated_at < a.updated_at))
    (hnz : ∀ m ∈ ms, m.trait_value ≠ 0)
    (hts : ∀ m ∈ ms, "" < m.updated_at) :
    ∀ n, fetchAggTraits ms n = firstVal ms n := by
  cases ms with
  | nil => intro n; rfl
  | cons m0 rest =>
    intro n
    obtain ⟨hhead, _hrest⟩ := List.pairwise_cons.mp hsorted
    unfold fetchAggTraits
    rw [List.foldl_cons]
    rw [aggStep_assign initAgg m0 (Or.inl rfl)]
    have hst2 : ∀ n' v,
        (if n' = m0.trait_name then some m0.trait_value else initAgg.traits n') = some v →
          v ≠ 0 := by
      intro n' v hv
      by_cases hn' : n' = m0.trait_name
      · rw [if_pos hn'] at hv
        injection hv with hv'
        exact hv' ▸ hnz m0 (List.mem_cons_self m0 rest)
      · rw [if_neg hn'] at hv
        exact absurd hv (by simp [initAgg])
    have hlt2 : ∀ x ∈ rest, x.updated_at <
        (if initAgg.latestUpdated < m0.updated_at then m0.updated_at
          else initAgg.latestUpdated) := by
      intro x hx
      have h0 : initAgg.latestUpdated = "" := rfl
      rw [h0, if_pos (hts m0 (List.mem_cons_self m0 rest))]
      exact hhead x hx
    have hnz2 : ∀ x ∈ rest, x.trait_value ≠ 0 :=
      fun x hx => hnz x (List.mem_cons_of_mem m0 hx)
    rw [aggStep_go rest _ hst2 hlt2 hnz2 n]
    show optOr (if n = m0.trait_name then some m0.trait_value else initAgg.traits n)
        (firstVal rest n) = firstVal (m0 :: rest) n
    by_cases hn : n = m0.trait_name
    · rw [if_pos hn, hn, firstVal_cons_self m0 rest m0.trait_name rfl]
      rfl
    · rw [if_neg hn, firstVal_cons_ne m0 rest n (fun h => hn h.symm)]
      rfl

/-- On a strictly descending list, the first occurrence of a trait is the
record with the latest timestamp for that trait. -/
theorem isLatest_firstVal (ms : List TraitMem)
    (hsorted : ms.Pairwise (fun a b => b.updated_at < a.updated_at)) :
    ∀ (n : TraitName) (m : TraitMem), isLatestForTrait ms n m →
      firstVal ms n = some m.trait_value := by
  induction ms with
  | nil =>
    intro n m hm
    exact absurd hm.1 (List.not_mem_nil m)
  | cons m0 rest ih =>
    intro n m hm
    obtain ⟨hmem, hname, hmax⟩ := hm
    obtain ⟨hhead, hrest⟩ := List.pairwise_cons.mp hsorted
    by_cases h0 : m0.trait_name = n
    · rw [firstVal_cons_self m0 rest n h0]
      rcases List.mem_cons.mp hmem with heq | hmem'
      · rw [heq]
      · exfalso
        have h1 : m.updated_at < m0.updated_at := hhead m hmem'
        have h2 : m0.updated_at ≤ m.updated_at :=
          hmax m0 (List.mem_cons_self m0 rest) h0
        exact absurd h1 (not_lt.mpr h2)
    · rw [firstVal_cons_ne m0 rest n h0]
      have hm' : m ∈ rest := by
        rcases List.mem_cons.mp hmem with heq | hmem'
        · exact absurd (heq ▸ hname) h0
        · exact hmem'
      exact ih hrest n m
        ⟨hm', hname, fun m' hm'' hn' => hmax m' (List.mem_cons_of_mem m0 hm'') hn'⟩

/-- C7 counterexample: in a store-ordered (descending) record list where
the *latest* aggression record holds the value 0, the aggregation of
`fetchLatestPersona` returns the *older* record's value 0.3 — the JS
falsiness test `!traits[traitName]` treats the stored 0 as absent — so
latest-timestamp-wins per trait field does not hold as claimed. -/
theorem agg_latest_zero_overwritten :
    isLatestForTrait memsC7 TraitName.aggression zeroValMem ∧
    zeroValMem.trait_value = 0 ∧
    olderMem.trait_value = 3/10 ∧
    fetchAggTraits memsC7 TraitName.aggression = some olderMem.trait_value ∧
    fetchAggTraits memsC7 TraitName.aggression ≠ some zeroValMem.trait_value := by
  have hlt : olderMem.updated_at ≤ zeroValMem.updated_at := by
    simp only [olderMem, zeroValMem]
    rw [String.le_iff_toList_le]
    decide
  have hval : fetchAggTraits memsC7 TraitName.aggression = some olderMem.trait_value := rfl
  refine ⟨⟨by simp [memsC7], rfl, ?_⟩, rfl, rfl, hval, ?_⟩
  · intro m' hm' _
    rcases List.mem_cons.mp hm' with h | h
    · rw [h]
    · rcases List.mem_cons.mp h with h2 | h2
      · rw [h2]
        exact hlt
      · exact absurd h2 (List.not_mem_nil m')
  · rw [hval]
    intro h
    injection h with h'
    norm_num [olderMem, zeroValMem] at h'

/-- C7 amended: per-trait latest-timestamp-wins does hold for the
`fetchLatestPersona` aggregation under the conditions the source relies
on — records arrive strictly descending by `updated_at` (the store's sort
order), all stored trait values are nonzero (the falsiness test then
never un-sets a trait), and timestamps are nonempty. -/
theorem agg_latest_sorted (ms : List TraitMem)
    (hsorted : ms.Pairwise (fun a b => b.updated_at < a.updated_at))
    (hnz : ∀ m ∈ ms, m.trait_value ≠ 0)
    (hts : ∀ m ∈ ms, "" < m.updated_at)
    (n : TraitName) (m : TraitMem) (hm : isLatestForTrait ms n m) :
    fetchAggTraits ms n = some m.trait_value := by
  rw [fetchAgg_eq_firstVal ms hsorted hnz hts n]
  exact isLatest_firstVal ms hsorted n m hm

/-- C7 amended witness: two sorted aggression records with nonzero
values; the aggregation returns the latest one's value 0.7. -/
theorem agg_latest_sorted_witness :
    isLatestForTrait memsC7ok TraitName.aggression topMem ∧
    fetchAggTraits memsC7ok TraitName.aggression = some topMem.trait_value := by
  have hstr : olderMem.updated_at < topMem.updated_at := by
    simp only [olderMem, topMem]
    rw [String.lt_iff_toList_lt]
    decide
  have hlatest : isLatestForTrait memsC7ok TraitName.aggression topMem := by
    refine ⟨by simp [memsC7ok], rfl, ?_⟩
    intro m' hm' _
    rcases List.mem_cons.mp hm' with h | h
    · rw [h]
    · rcases List.mem_cons.mp h with h2 | h2
      · rw [h2]
        exact le_of_lt hstr
      · exact absurd h2 (List.not_mem_nil m')
  have hsorted : memsC7ok.Pairwise (fun a b => b.updated_at < a.updated_at) := by
    show List.Pairwise _ [topMem, olderMem]
    refine List.Pairwise.cons ?_ ?_
    · intro b hb
      rcases List.mem_cons.mp hb with hb2 | hb2
      · rw [hb2]
        exact hstr
      · exact absurd hb2 (List.not_mem_nil b)
    · exact List.Pairwise.cons (fun b hb => absurd hb (List.not_mem_nil b)) List.Pairwise.nil
  have hnz : ∀ m ∈ memsC7ok, m.trait_value ≠ 0 := by
    intro m hm
    rcases List.mem_cons.mp hm with h | h
    · rw [h]
      norm_num [topMem]
    · rcases List.mem_cons.mp h with h2 | h2
      · rw [h2]
        norm_num [olderMem]
      · exact absurd h2 (List.not_mem_nil m)
  have hts : ∀ m ∈ memsC7ok, "" < m.updated_at := by
    intro m hm
    rcases List.mem_cons.mp hm with h | h
    · rw [h]
      simp only [topMem]
      rw [String.lt_iff_toList_lt]
      decide
    · rcases List.mem_cons.mp h with h2 | h2
      · rw [h2]
        simp only [olderMem]
        rw [String.lt_iff_toList_lt]
        decide
      · exact absurd h2 (List.not_mem_nil m)
  exact ⟨hlatest,
    agg_latest_sorted memsC7ok hsorted hnz hts TraitName.aggression topMem hlatest⟩

end Chronicle
